import Mathlib

/-!
Shallow embedding of the `sema.Group` concurrency primitive (package `sema`,
file `group.go`): a packed 64-bit counter (pending:uint32 in the high half,
active:int32 in the low half), a lazily installed block channel, a tri-state
wait-channel slot, and the public operations `NewGroup`, `SetSize`, `Size`,
`ActiveCount`, `PendingCount`, `Reserve`, `ReserveN`, `TryReserveN`, `Free`,
`FreeN`, `Wait` and `WaitChan`.

The embedding is sequential: a single caller runs one operation to completion,
so every compare-and-swap on the counter commits on its first attempt, a send
on the block channel never finds a receiver, and a receive from the block
channel never finds a sender.  Blocking that can never end in a sequential run
(a park on the block channel, a receive from a never-ready done channel, or
the notify-free spin loop with nonzero pending) is modelled by the `Res.blocks`
outcome.  Go panics are modelled by `Res.panics` carrying the exact panic
message and the state at the moment of the panic.
-/

namespace Sema

/-- Unsigned 32-bit truncation of an integer, as Go's `uint32(x)` conversion. -/
def wrap32u (x : Int) : Nat := (x % 4294967296).toNat

/-- Signed 32-bit reinterpretation of an integer, as Go's `int32(x)` conversion. -/
def wrap32s (x : Int) : Int := (x + 2147483648) % 4294967296 - 2147483648

/-- Pending half of the packed counter: `uint32(counter >> 32)` from `counterParts`. -/
def pendingPart (counter : Nat) : Nat := counter / 4294967296 % 4294967296

/-- Active half of the packed counter: `int32(counter)` from `counterParts`. -/
def activePart (counter : Nat) : Int := wrap32s (counter : Int)

/-- The pure arithmetic of `Group.counterUpdate`: apply `pendingDelta` to the
unsigned high half and `activeDelta` to the signed low half, with a carry into
the high half when the signed low-half addition overflows upward and a borrow
when it overflows downward, then repack both halves into one 64-bit word.
In the sequential model the compare-and-swap always commits, so this word is
the new counter. -/
def counterUpdateWord (oldCounter : Nat) (pendingDelta activeDelta : Int) : Nat :=
  let oldPending : Nat := pendingPart oldCounter
  let oldActive : Int := activePart oldCounter
  let newPending : Nat := (oldPending + wrap32u pendingDelta) % 4294967296
  let newActive : Int := wrap32s (oldActive + wrap32s activeDelta)
  let newPending : Nat :=
    if 0 < activeDelta ∧ newActive < oldActive then
      (newPending + 1) % 4294967296
    else if activeDelta < 0 ∧ oldActive < newActive then
      (newPending + 4294967295) % 4294967296
    else newPending
  newPending * 4294967296 + wrap32u newActive

/-- The wait-channel slot (`Group.waitChan`, an `atomic.Value`): absent (nil),
holding a live not-yet-closed channel, or holding the `nilChan` sentinel left
behind after the previous channel was closed. -/
inductive WaitSlot where
  | absent
  | live
  | sentinel
deriving DecidableEq

/-- A channel value handed out by `initWaitChan`: the process-wide
already-closed channel `closedChan`, or a live channel that is closed only
when the group later empties. -/
inductive ChanRef where
  | closed
  | live
deriving DecidableEq

/-- The `sema.Group` state: wait-channel slot, whether the block channel has
been installed (`blockChan` is nil or a channel), the packed 64-bit counter,
and the 32-bit size. -/
structure Group where
  waitChan : WaitSlot
  blockChan : Bool
  counter : Nat
  size : Nat
deriving DecidableEq

/-- The zero value of `Group`: all fields zero, no channels installed. -/
def Group.zero : Group := { waitChan := .absent, blockChan := false, counter := 0, size := 0 }

/-- A done (cancellation) channel argument, abstracted by when it becomes
receive-ready: `noChan` is a nil channel, `never` is a channel that is never
ready, `now` is already ready when the call starts, `later` becomes ready at
some point after the call starts. -/
inductive Cancel where
  | noChan
  | never
  | now
  | later
deriving DecidableEq

/-- A non-nil channel was supplied. -/
def Cancel.provided : Cancel → Bool
  | .noChan => false
  | _ => true

/-- A non-blocking receive from the done channel succeeds right now. -/
def Cancel.readyNow : Cancel → Bool
  | .now => true
  | _ => false

/-- A blocking receive from the done channel eventually completes. -/
def Cancel.eventuallyReady : Cancel → Bool
  | .now => true
  | .later => true
  | _ => false

/-- Outcome of running one operation sequentially: it returns a value in a new
state, panics with a message in the state at the panic, or blocks forever (the
state shown is the state at the moment the call parked). -/
inductive Res (α : Type) where
  | ret : α → Group → Res α
  | panics : String → Group → Res α
  | blocks : Group → Res α
deriving DecidableEq

/-- Sequence two operations: panics and blocks propagate. -/
def Res.bind {α β : Type} : Res α → (α → Group → Res β) → Res β
  | .ret a g, f => f a g
  | .panics s g, _ => .panics s g
  | .blocks g, _ => .blocks g

/-- The panic message of an outcome, if it panicked. -/
def Res.panicMsg {α : Type} : Res α → Option String
  | .panics s _ => some s
  | _ => none

/-- The returned value of an outcome, if it returned. -/
def Res.retValue {α : Type} : Res α → Option α
  | .ret a _ => some a
  | _ => none

/-- `Group.setSize`: normalize a negative size to 0; for a positive size check
that it round-trips through `uint32` (panicking otherwise), then store it and
install the block channel; a zero size changes nothing. -/
def Group.setSize (g : Group) (size : Int) : Res Unit :=
  let size := if size < 0 then 0 else size
  if 0 < size then
    let s : Nat := wrap32u size
    if (s : Int) ≠ size then .panics "sema.Group: incorrect group size" g
    else .ret () { g with size := s, blockChan := true }
  else .ret () g

/-- `NewGroup`: allocate a zero `Group` and apply `setSize`. -/
def NewGroup (size : Int) : Res Unit := Group.zero.setSize size

/-- `Group.SetSize`: panic if the counter is nonzero, panic if the block
channel is already installed, run `setSize`, then re-check the counter. -/
def Group.SetSize (g : Group) (size : Int) : Res Unit :=
  if g.counter ≠ 0 then
    .panics "sema.Group: concurrent Reserve calls while initializing group" g
  else if g.blockChan then
    .panics "sema.Group: group already initialized" g
  else
    match g.setSize size with
    | .ret _ g1 =>
      if g1.counter ≠ 0 then
        .panics "sema.Group: concurrent Reserve calls while initializing group" g1
      else .ret () g1
    | r => r

/-- `Group.Size`: the stored size as a Go int. -/
def Group.Size (g : Group) : Int := (g.size : Int)

/-- `Group.ActiveCount`: the signed active half of the counter as a Go int. -/
def Group.ActiveCount (g : Group) : Int := activePart g.counter

/-- `Group.PendingCount`: the unsigned pending half of the counter as a Go int. -/
def Group.PendingCount (g : Group) : Int := (pendingPart g.counter : Int)

/-- `Group.notifyWait` with a `(pending, active)` snapshot: return unless both
are at most zero; then, if the wait slot holds a live channel, swap in the
sentinel and close the channel (the compare-and-swap commits sequentially). -/
def Group.notifyWait (g : Group) (pending : Nat) (active : Int) : Group :=
  if 0 < pending ∨ 0 < active then g
  else
    match g.waitChan with
    | .absent => g
    | .sentinel => g
    | .live => { g with waitChan := .sentinel }

/-- `Group.tryReserve`: if pending is 0 and `active + reserveN` fits under the
size, commit `reserveN` to active and report success; otherwise a try-call
reports failure without touching the counter, while a blocking call commits
`reserveN` to pending (the enqueue step) and reports failure.  Sequentially
every compare-and-swap commits on the first attempt. -/
def Group.tryReserve (g : Group) (size : Nat) (reserveN : Int) (tryCall : Bool) : Bool × Group :=
  if pendingPart g.counter = 0 ∧ activePart g.counter + reserveN ≤ (size : Int) then
    (true, { g with counter := counterUpdateWord g.counter 0 reserveN })
  else if tryCall = false then
    (false, { g with counter := counterUpdateWord g.counter reserveN 0 })
  else
    (false, g)

/-- `Group.reserveNAbortWait`: move `reserveN` out of pending, run the
notify-free loop (`Group.notifyFree` sends on the block channel while the
pending half is nonzero; with no concurrently parked reserver the send can
never complete, so sequentially it returns a counter snapshot only when
pending is already 0 and otherwise spins forever), then notify waiters with
the snapshot, and report failure. -/
def Group.reserveNAbortWait (g : Group) (reserveN : Int) : Res Bool :=
  if pendingPart (counterUpdateWord g.counter (-reserveN) 0) = 0 then
    .ret false
      (Group.notifyWait { g with counter := counterUpdateWord g.counter (-reserveN) 0 }
        (pendingPart (counterUpdateWord g.counter (-reserveN) 0))
        (activePart (counterUpdateWord g.counter (-reserveN) 0)))
  else .blocks { g with counter := counterUpdateWord g.counter (-reserveN) 0 }

/-- Sequential model of `Group.reserveNSlow`: panic if the block channel is
absent; otherwise the select between the block channel and the done channel can
only ever fire on the done channel (no concurrent sender exists), so the call
aborts once the done channel becomes ready and otherwise stays parked forever. -/
def Group.reserveNSlowSeq (g : Group) (doneChan : Cancel) (reserveN : Int) : Res Bool :=
  if g.blockChan = false then
    .panics "sema.Group: concurrent Reserve calls while initializing group" g
  else if doneChan.eventuallyReady then g.reserveNAbortWait reserveN
  else .blocks g

/-- `Group.ReserveN`: panic on a non-positive weight; return false at once if
the done channel is already ready; in unlimited mode commit the weight to
active and succeed; if the weight exceeds the size, wait on the done channel
when one was provided (returning false once it is ready) and return false at
once otherwise; else run the fast path and fall back to the slow path (which
the fast path has already entered in the counter, by moving the weight into
pending). -/
def Group.ReserveN (g : Group) (doneChan : Cancel) (n : Int) : Res Bool :=
  if n ≤ 0 then .panics "sema.Group: invalid group reserve N value" g
  else if doneChan.readyNow then .ret false g
  else if g.size = 0 then
    .ret true { g with counter := counterUpdateWord g.counter 0 n }
  else if (g.size : Int) < n then
    if doneChan.provided then
      if doneChan.eventuallyReady then .ret false g else .blocks g
    else .ret false g
  else if (g.tryReserve g.size n false).1 then .ret true (g.tryReserve g.size n false).2
  else (g.tryReserve g.size n false).2.reserveNSlowSeq doneChan n

/-- `Group.Reserve`: `ReserveN(nil, 1)`. -/
def Group.Reserve (g : Group) : Res Bool := g.ReserveN .noChan 1

/-- `Group.TryReserveN`: panic on a non-positive weight; in unlimited mode
commit the weight to active and succeed; fail if the weight exceeds the size;
else run the non-blocking fast path. -/
def Group.TryReserveN (g : Group) (n : Int) : Res Bool :=
  if n ≤ 0 then .panics "sema.Group: invalid group reserve N value" g
  else if g.size = 0 then
    .ret true { g with counter := counterUpdateWord g.counter 0 n }
  else if (g.size : Int) < n then .ret false g
  else .ret (g.tryReserve g.size n true).1 (g.tryReserve g.size n true).2

/-- `Group.FreeN`: panic on a non-positive weight; commit `-n` to active; if
the block channel is installed run the notify-free loop (which sequentially
returns a fresh pending snapshot only when the pending half is zero, and
otherwise spins forever with no parked reserver to receive its send); notify
waiters with the snapshot pending (or 0 when the block channel is absent) and
the committed active value; finally panic if the committed active value is
negative. -/
def Group.FreeN (g : Group) (n : Int) : Res Unit :=
  if n ≤ 0 then .panics "sema.Group: invalid group free N value" g
  else if g.blockChan ∧ pendingPart (counterUpdateWord g.counter 0 (-n)) ≠ 0 then
    .blocks { g with counter := counterUpdateWord g.counter 0 (-n) }
  else if activePart (counterUpdateWord g.counter 0 (-n)) < 0 then
    .panics "sema.Group: negative group counter"
      (Group.notifyWait { g with counter := counterUpdateWord g.counter 0 (-n) }
        (if g.blockChan then pendingPart (counterUpdateWord g.counter 0 (-n)) else 0)
        (activePart (counterUpdateWord g.counter 0 (-n))))
  else
    .ret ()
      (Group.notifyWait { g with counter := counterUpdateWord g.counter 0 (-n) }
        (if g.blockChan then pendingPart (counterUpdateWord g.counter 0 (-n)) else 0)
        (activePart (counterUpdateWord g.counter 0 (-n))))

/-- `Group.Free`: `FreeN(1)`. -/
def Group.Free (g : Group) : Res Unit := g.FreeN 1

/-- Sequential model of `Group.initWaitChanSlow`: the compare-and-swap from the
observed slot value to a freshly allocated channel commits (no concurrent
writer), after which the counters are re-checked. -/
def Group.initWaitChanSlowSeq (g : Group) : ChanRef × Group :=
  if pendingPart g.counter ≤ 0 ∧ activePart g.counter ≤ 0 then
    (.closed, { g with waitChan := WaitSlot.live })
  else (.live, { g with waitChan := WaitSlot.live })

/-- `Group.initWaitChan`: if both counter halves are at most zero return the
process-wide already-closed channel without touching the slot; if the slot
holds a live channel return it; otherwise install a fresh channel. -/
def Group.initWaitChan (g : Group) : ChanRef × Group :=
  if pendingPart g.counter ≤ 0 ∧ activePart g.counter ≤ 0 then (.closed, g)
  else
    match g.waitChan with
    | .live => (.live, g)
    | _ => g.initWaitChanSlowSeq

/-- `Group.WaitChan`: expose the channel from `initWaitChan`. -/
def Group.WaitChan (g : Group) : ChanRef × Group := g.initWaitChan

/-- `Group.Wait`: receive from the channel returned by `initWaitChan`; the
already-closed channel yields immediately, a live one parks the caller (and in
a sequential run nothing can ever close it). -/
def Group.Wait (g : Group) : Res Unit :=
  if g.initWaitChan.1 = ChanRef.closed then .ret () g.initWaitChan.2
  else .blocks g.initWaitChan.2

/-! ### Sequential client programs

Machinery for running a whole sequence of client operations against one
`Group`, used to state invariants over every sequence of operations. -/

/-- One client operation: a blocking weighted reserve with its done channel, a
non-blocking weighted reserve, a weighted free, or a wait. -/
inductive ZOp where
  | reserve (doneChan : Cancel) (n : Int)
  | tryReserve (n : Int)
  | free (n : Int)
  | wait
deriving DecidableEq

/-- The net change an operation makes to the active count when it succeeds. -/
def zdelta : ZOp → Int
  | .reserve _ n => n
  | .tryReserve n => n
  | .free n => -n
  | .wait => 0

/-- Net active weight of a whole program. -/
def znet : List ZOp → Int
  | [] => 0
  | op :: l => zdelta op + znet l

/-- The state after an outcome, kept only when the call returned `true`. -/
def retTrueState : Res Bool → Option Group
  | .ret true g1 => some g1
  | _ => none

/-- The state after an outcome, kept only when the call returned. -/
def retAnyState {α : Type} : Res α → Option Group
  | .ret _ g1 => some g1
  | _ => none

/-- Run one operation; the run is kept only when the operation returns (no
panic, no blocking) and, for the reserve variants, succeeds with `true`. -/
def zstep (g : Group) : ZOp → Option Group
  | .reserve c n => retTrueState (g.ReserveN c n)
  | .tryReserve n => retTrueState (g.TryReserveN n)
  | .free n => retAnyState (g.FreeN n)
  | .wait => retAnyState g.Wait

/-- Run a whole program, stopping at the first operation that does not return. -/
def zrun (g : Group) : List ZOp → Option Group
  | [] => some g
  | op :: l =>
    match zstep g op with
    | some g1 => zrun g1 l
    | none => none

/-- Legality of one operation in a given state: positive weights, a done
channel that is not already signalled, a running active total staying within
the signed 32-bit half, frees not exceeding the active count, and waits only
on an empty group (in a sequential run a wait on a non-empty group would park
forever). -/
def zok (g : Group) : ZOp → Bool
  | .reserve c n => decide (0 < n) && !c.readyNow && decide (g.ActiveCount + n < 2147483648)
  | .tryReserve n => decide (0 < n) && decide (g.ActiveCount + n < 2147483648)
  | .free n => decide (0 < n) && decide (n ≤ g.ActiveCount)
  | .wait => decide (g.ActiveCount = 0)

/-- Legality of a whole program from a given state. -/
def zlegal (g : Group) : List ZOp → Bool
  | [] => true
  | op :: l =>
    zok g op &&
      match zstep g op with
      | some g1 => zlegal g1 l
      | none => false

/-- State invariant of a never-configured group: size 0, no block channel, and
a counter that is just a small nonnegative active value (pending 0). -/
def ZInv (g : Group) : Prop :=
  g.size = 0 ∧ g.blockChan = false ∧ g.counter < 2147483648

end Sema

namespace Sema

/-! ### Arithmetic helper lemmas about the packed counter -/

theorem wrap32s_add_wrap32s (a b : Int) : wrap32s (a + wrap32s b) = wrap32s (a + b) := by
  unfold wrap32s
  omega

/-- Closed form of `counterUpdateWord`: the low half is the signed 32-bit sum
of the old active value and the active delta, and the high half is the
unsigned 32-bit sum of the old pending value, the pending delta, the carry and
the borrow. -/
theorem counterUpdateWord_closed (c : Nat) (dp da : Int) :
    counterUpdateWord c dp da =
      wrap32u ((pendingPart c : Int) + dp
          + (if 0 < da ∧ wrap32s (activePart c + da) < activePart c then 1 else 0)
          - (if da < 0 ∧ activePart c < wrap32s (activePart c + da) then 1 else 0))
        * 4294967296
      + wrap32u (wrap32s (activePart c + da)) := by
  simp only [counterUpdateWord, wrap32s_add_wrap32s]
  split_ifs with h1 h2 <;>
    simp only [wrap32u, wrap32s, pendingPart, activePart] <;> omega

theorem wrap32s_wrap32u (x : Int) : wrap32s ((wrap32u x : Nat) : Int) = wrap32s x := by
  unfold wrap32s wrap32u
  omega

theorem wrap32s_wrap32s (x : Int) : wrap32s (wrap32s x) = wrap32s x := by
  unfold wrap32s
  omega

/-- The signed low half of a packed word ignores the high half. -/
theorem activePart_pack (P A : Nat) :
    activePart (P * 4294967296 + A) = wrap32s (A : Int) := by
  unfold activePart wrap32s
  omega

theorem activePart_counterUpdateWord (c : Nat) (dp da : Int) :
    activePart (counterUpdateWord c dp da) = wrap32s (activePart c + da) := by
  rw [counterUpdateWord_closed, activePart_pack, wrap32s_wrap32u, wrap32s_wrap32s]

theorem activePart_small (c : Nat) (hc : c < 2147483648) : activePart c = (c : Int) := by
  simp only [activePart, wrap32s]
  omega

theorem pendingPart_small (c : Nat) (hc : c < 4294967296) : pendingPart c = 0 := by
  simp only [pendingPart]
  omega

/-- On a counter that is just a small nonnegative active value, adding a small
positive active delta is plain addition: no wraparound, no carry. -/
theorem counterUpdateWord_small_add (c : Nat) (n : Int)
    (hc : c < 2147483648) (hn : 0 < n) (hsum : (c : Int) + n < 2147483648) :
    counterUpdateWord c 0 n = c + n.toNat := by
  have ha : activePart c = (c : Int) := activePart_small c hc
  have hna : wrap32s (activePart c + n) = (c : Int) + n := by
    rw [ha]
    simp only [wrap32s]
    omega
  rw [counterUpdateWord_closed, hna, ha]
  rw [if_neg (by omega), if_neg (by omega)]
  rw [pendingPart_small c (by omega)]
  simp only [wrap32u]
  omega

/-- On a counter that is just a small nonnegative active value, subtracting at
most that value is plain subtraction: no wraparound, no borrow. -/
theorem counterUpdateWord_small_sub (c : Nat) (n : Int)
    (hc : c < 2147483648) (hn : 0 < n) (hle : n ≤ (c : Int)) :
    counterUpdateWord c 0 (-n) = c - n.toNat := by
  have ha : activePart c = (c : Int) := activePart_small c hc
  have hna : wrap32s (activePart c + -n) = (c : Int) - n := by
    rw [ha]
    simp only [wrap32s]
    omega
  rw [counterUpdateWord_closed, hna, ha]
  rw [if_neg (by omega), if_neg (by omega)]
  rw [pendingPart_small c (by omega)]
  simp only [wrap32u]
  omega

theorem notifyWait_fields (g : Group) (p : Nat) (a : Int) :
    (g.notifyWait p a).counter = g.counter ∧
    (g.notifyWait p a).size = g.size ∧
    (g.notifyWait p a).blockChan = g.blockChan := by
  unfold Group.notifyWait
  split_ifs
  · exact ⟨rfl, rfl, rfl⟩
  · cases h : g.waitChan <;> simp [h]

/-! ### Claim C2 -/

/-- Claim C2 (confirmed): for every old counter word and every pair of deltas,
`counterUpdate` computes the new active value as the signed 32-bit wraparound
sum of the old active value and the active delta, computes the new pending
value as the unsigned 32-bit wraparound sum of the old pending value and the
pending delta plus 1 exactly when the active delta is positive and the new
active value is (signed-) less than the old one, minus 1 exactly when the
active delta is negative and the new active value is greater than the old one,
and packs new pending in the upper 32 bits of the returned word and new active,
reinterpreted unsigned, in the lower 32 bits. -/
theorem c2_counterUpdate_carry_borrow (old : Nat) (dp da : Int) :
    counterUpdateWord old dp da =
      wrap32u ((pendingPart old : Int) + dp
          + (if 0 < da ∧ wrap32s (activePart old + da) < activePart old then 1 else 0)
          - (if da < 0 ∧ activePart old < wrap32s (activePart old + da) then 1 else 0))
        * 4294967296
      + wrap32u (wrap32s (activePart old + da)) :=
  counterUpdateWord_closed old dp da

/-! ### Claim C7 -/

/-- Claim C7 (confirmed): a zero-initialized `Group` and the `Group` produced
by `NewGroup(0)`, and by `NewGroup(k)` for negative `k` (negative sizes
normalize to 0), are the very same state: size 0, counter 0, no block channel
and no wait channel installed; hence every operation behaves identically on
them, and they are unlimited with `ActiveCount() == 0` and
`PendingCount() == 0`. -/
theorem c7_zero_value_newgroup (k : Int) (hk : k ≤ 0) :
    NewGroup k = .ret () Group.zero ∧
    Group.zero.Size = 0 ∧ Group.zero.ActiveCount = 0 ∧ Group.zero.PendingCount = 0 ∧
    Group.zero.waitChan = .absent ∧ Group.zero.blockChan = false := by
  refine ⟨?_, by decide, by decide, by decide, rfl, rfl⟩
  unfold NewGroup Group.setSize
  have h0 : ¬ (0 < if k < 0 then (0 : Int) else k) := by
    split_ifs <;> omega
  rw [if_neg h0]

/-- Witness for claim C7 at the concrete size -3. -/
theorem c7_zero_value_newgroup_witness :
    (-3 : Int) ≤ 0 ∧
    (NewGroup (-3) = .ret () Group.zero ∧
     Group.zero.Size = 0 ∧ Group.zero.ActiveCount = 0 ∧ Group.zero.PendingCount = 0 ∧
     Group.zero.waitChan = .absent ∧ Group.zero.blockChan = false) :=
  ⟨by decide, c7_zero_value_newgroup (-3) (by decide)⟩

/-! ### Claim C9 -/

/-- Claim C9 (confirmed): whenever a `Group`'s counters satisfy
`pending == 0` and `active == 0`, `WaitChan()` returns the process-wide
already-closed channel and leaves the wait-channel slot (and all other state)
unchanged, and `Wait()` returns immediately without blocking and without
mutating any `Group` state. -/
theorem c9_waitchan_closed_when_empty (g : Group)
    (hp : g.PendingCount = 0) (ha : g.ActiveCount = 0) :
    g.WaitChan = (.closed, g) ∧ g.Wait = .ret () g := by
  have h : pendingPart g.counter ≤ 0 ∧ activePart g.counter ≤ 0 := by
    unfold Group.PendingCount at hp
    unfold Group.ActiveCount at ha
    omega
  have h1 : g.initWaitChan = (.closed, g) := by
    unfold Group.initWaitChan
    simp [h]
  refine ⟨?_, ?_⟩
  · unfold Group.WaitChan
    exact h1
  · unfold Group.Wait
    rw [h1]
    rfl

/-- Witness for claim C9 on a concrete empty group carrying the sentinel wait
slot and an installed block channel. -/
theorem c9_waitchan_closed_when_empty_witness :
    (Group.PendingCount ⟨.sentinel, true, 0, 5⟩ = 0 ∧
     Group.ActiveCount ⟨.sentinel, true, 0, 5⟩ = 0) ∧
    (Group.WaitChan ⟨.sentinel, true, 0, 5⟩ = (.closed, ⟨.sentinel, true, 0, 5⟩) ∧
     Group.Wait ⟨.sentinel, true, 0, 5⟩ = .ret () ⟨.sentinel, true, 0, 5⟩) :=
  ⟨⟨by decide, by decide⟩,
   c9_waitchan_closed_when_empty ⟨.sentinel, true, 0, 5⟩ (by decide) (by decide)⟩

end Sema

namespace Sema

/-! ### Claim C4 -/

/-- Claim C4 (confirmed): on a fresh `Group` with capacity 2, the sequential
program `ReserveN(never,1); TryReserveN(1); TryReserveN(1); FreeN(2);
TryReserveN(1); ReserveN(never,1); TryReserveN(1)` (each `ReserveN` given a
never-ready done channel) completes without blocking or faulting, both
`ReserveN` calls return true, and the four `TryReserveN` results are exactly
`[true, false, true, false]`. -/
theorem c4_capacity2_program :
    (NewGroup 2).bind (fun _ g => (g.ReserveN .never 1).bind
      (fun r1 g => (g.TryReserveN 1).bind
      (fun t1 g => (g.TryReserveN 1).bind
      (fun t2 g => (g.FreeN 2).bind
      (fun _ g => (g.TryReserveN 1).bind
      (fun t3 g => (g.ReserveN .never 1).bind
      (fun r2 g => (g.TryReserveN 1).bind
      (fun t4 g => Res.ret ([r1, r2], [t1, t2, t3, t4]) g))))))))
    = .ret ([true, true], [true, false, true, false]) ⟨.absent, true, 2, 2⟩ := by
  decide

/-! ### Claim C1 -/

/-- Counterexample to claim C1: on a `Group` with capacity 1 > 0 and weight
2 > 1, `ReserveN` with no cancellation channel (nil done channel) returns
false immediately, with the state untouched — it does not block forever as the
claim states: the source guards the receive with `if doneChan != nil` and
falls through to `return false` when the channel is nil. -/
theorem c1_counterexample :
    Group.ReserveN ⟨.absent, true, 0, 1⟩ .noChan 2 = .ret false ⟨.absent, true, 0, 1⟩ := by
  decide

/-- Claim C1 as amended: for every `Group` with capacity `C > 0` and every
weight `n > C`, `ReserveN(cancel, n)` never commits and never mutates pending
or active; if a cancellation channel is provided, the call blocks until that
channel is ready and then returns false (immediately, if it is already ready;
forever, if it never becomes ready); if no cancellation channel is provided,
the call returns false immediately instead of blocking forever. -/
theorem c1_oversized_reserve (g : Group) (c : Cancel) (n : Int)
    (hs : 0 < g.size) (hn : (g.size : Int) < n) :
    g.ReserveN c n =
      match c with
      | .noChan => .ret false g
      | .now => .ret false g
      | .later => .ret false g
      | .never => .blocks g := by
  have hn0 : ¬ n ≤ 0 := by omega
  have hsz : ¬ g.size = 0 := by omega
  cases c <;>
    simp [Group.ReserveN, Cancel.readyNow, Cancel.provided, Cancel.eventuallyReady,
      hn0, hsz, hn]

/-- Witness for claim C1's amended theorem on a concrete group of capacity 3,
weight 5 and a never-ready done channel: the call parks forever with the state
untouched. -/
theorem c1_oversized_reserve_witness :
    (0 < (3 : Nat) ∧ ((3 : Nat) : Int) < 5) ∧
    Group.ReserveN ⟨.absent, true, 0, 3⟩ .never 5 = .blocks ⟨.absent, true, 0, 3⟩ :=
  ⟨⟨by decide, by decide⟩,
   c1_oversized_reserve ⟨.absent, true, 0, 3⟩ .never 5 (by decide) (by decide)⟩

end Sema

namespace Sema

/-! ### Claim C8 -/

/-- Claim C8 (confirmed): `SetSize(n)` on a `Group` with counter 0 and no
block channel installed leaves the group unlimited without fault when
`n <= 0`, sets the size to `n` and installs the block channel when `0 < n`
fits an unsigned 32-bit value, and faults when it does not fit; a second
`SetSize` with a positive argument after the group was configured faults with
the tag "group already initialized"; and `SetSize` called when the counter is
nonzero faults. -/
theorem c8_setsize (g : Group) (n : Int) :
    (g.counter = 0 → g.blockChan = false → g.size = 0 →
      ((n ≤ 0 → g.SetSize n = .ret () g) ∧
       (0 < n → n < 4294967296 →
         g.SetSize n = .ret () { g with size := n.toNat, blockChan := true }) ∧
       (4294967296 ≤ n →
         g.SetSize n = .panics "sema.Group: incorrect group size" g))) ∧
    (g.counter = 0 → g.blockChan = true → 0 < n →
      g.SetSize n = .panics "sema.Group: group already initialized" g) ∧
    (g.counter ≠ 0 →
      g.SetSize n = .panics "sema.Group: concurrent Reserve calls while initializing group" g) := by
  refine ⟨?_, ?_, ?_⟩
  · intro hc hb hsz
    refine ⟨?_, ?_, ?_⟩
    · intro hn
      have hset : g.setSize n = .ret () g := by
        unfold Group.setSize
        have h0 : ¬ (0 < if n < 0 then (0 : Int) else n) := by
          split_ifs <;> omega
        rw [if_neg h0]
      simp [Group.SetSize, hset, hc, hb]
    · intro hn hn32
      have hset : g.setSize n = .ret () { g with size := n.toNat, blockChan := true } := by
        unfold Group.setSize
        rw [if_neg (show ¬ n < 0 by omega)]
        rw [if_pos hn]
        have hw : wrap32u n = n.toNat := by
          simp only [wrap32u]
          omega
        have heq : ((wrap32u n : Nat) : Int) = n := by
          simp only [wrap32u]
          omega
        rw [if_neg (not_not_intro heq), hw]
      simp [Group.SetSize, hset, hc, hb]
    · intro hn32
      have hset : g.setSize n = .panics "sema.Group: incorrect group size" g := by
        unfold Group.setSize
        rw [if_neg (show ¬ n < 0 by omega)]
        rw [if_pos (show (0 : Int) < n by omega)]
        have hne : ((wrap32u n : Nat) : Int) ≠ n := by
          simp only [wrap32u]
          omega
        rw [if_pos hne]
      simp [Group.SetSize, hset, hc, hb]
  · intro hc hb _
    simp [Group.SetSize, hc, hb]
  · intro hc
    simp [Group.SetSize, hc]

/-- Witness for claim C8, instantiating all three top-level parts at concrete
inputs: size 7 on the unconfigured zero group (positive and fitting 32 bits,
so the size is stored and the block channel installed), size 7 on an
already-configured group (panics "group already initialized"), and size 7 on
a group whose counter is nonzero (panics the concurrent-reserve message). -/
theorem c8_setsize_witness :
    ((Group.zero.counter = 0 ∧ Group.zero.blockChan = false ∧ Group.zero.size = 0 ∧
      (0 : Int) < 7 ∧ (7 : Int) < 4294967296) ∧
     Group.zero.SetSize 7 = .ret () { Group.zero with size := 7, blockChan := true }) ∧
    ((Group.counter ⟨.absent, true, 0, 3⟩ = 0 ∧ Group.blockChan ⟨.absent, true, 0, 3⟩ = true) ∧
     Group.SetSize ⟨.absent, true, 0, 3⟩ 7 = .panics "sema.Group: group already initialized"
       ⟨.absent, true, 0, 3⟩) ∧
    (Group.counter ⟨.absent, false, 5, 0⟩ ≠ 0 ∧
     Group.SetSize ⟨.absent, false, 5, 0⟩ 7 =
       .panics "sema.Group: concurrent Reserve calls while initializing group"
       ⟨.absent, false, 5, 0⟩) :=
  ⟨⟨⟨rfl, rfl, rfl, by decide, by decide⟩,
    ((c8_setsize Group.zero 7).1 rfl rfl rfl).2.1 (by decide) (by decide)⟩,
   ⟨⟨rfl, rfl⟩, (c8_setsize ⟨.absent, true, 0, 3⟩ 7).2.1 rfl rfl (by decide)⟩,
   ⟨by decide, (c8_setsize ⟨.absent, false, 5, 0⟩ 7).2.2 (by decide)⟩⟩

end Sema

namespace Sema

/-! ### More helper lemmas for the free path -/

theorem wrap32u_lt (x : Int) : wrap32u x < 4294967296 := by
  simp only [wrap32u]
  omega

theorem activePart_lt (c : Nat) : activePart c < 2147483648 := by
  simp only [activePart, wrap32s]
  omega

theorem activePart_ge (c : Nat) : -2147483648 ≤ activePart c := by
  simp only [activePart, wrap32s]
  omega

theorem pendingPart_pack (P A : Nat) (hP : P < 4294967296) (hA : A < 4294967296) :
    pendingPart (P * 4294967296 + A) = P := by
  simp only [pendingPart]
  omega

/-- Subtracting a positive active delta from a counter with zero pending half
leaves the pending half at 0, unless the signed low half wraps upward (the
borrow), in which case the pending half becomes 2^32 - 1. -/
theorem pendingPart_cuw_sub (c : Nat) (n : Int)
    (hp : pendingPart c = 0) (hn : 0 < n) :
    pendingPart (counterUpdateWord c 0 (-n)) =
      if activePart c < wrap32s (activePart c + -n) then 4294967295 else 0 := by
  rw [counterUpdateWord_closed]
  rw [pendingPart_pack _ _ (wrap32u_lt _) (wrap32u_lt _)]
  rw [if_neg (show ¬ (0 < -n ∧ wrap32s (activePart c + -n) < activePart c) by omega)]
  rw [hp]
  by_cases h : activePart c < wrap32s (activePart c + -n)
  · rw [if_pos (show -n < 0 ∧ activePart c < wrap32s (activePart c + -n) from ⟨by omega, h⟩),
      if_pos h]
    simp only [wrap32u]
    omega
  · rw [if_neg (show ¬ (-n < 0 ∧ activePart c < wrap32s (activePart c + -n)) from
      fun hc => h hc.2), if_neg h]
    simp only [wrap32u]
    omega

end Sema

namespace Sema

/-! ### Claim C5 -/

/-- Counterexample to claim C5: the claim quantifies over every `Group` state,
but on a state whose active counter is negative (reachable by recovering from
an earlier `FreeN` fault, as the last conjunct shows), a `FreeN` whose 32-bit
decrement borrows from the pending half corrupts pending to 2^32 - 1 and then
spins forever inside `notifyFree` (no reserver is parked, so the send can
never complete and pending never drops to 0), never raising the fault even
though the committed decrement drove the stored active counter below zero
(here to -2). -/
theorem c5_counterexample :
    Group.FreeN ⟨.absent, true, 4294967291, 8⟩ 4294967293
      = .blocks ⟨.absent, true, 18446744073709551614, 8⟩ ∧
    Group.ActiveCount ⟨.absent, true, 18446744073709551614, 8⟩ = -2 ∧
    (NewGroup 8).bind (fun _ g => g.FreeN 5)
      = .panics "sema.Group: negative group counter" ⟨.absent, true, 4294967291, 8⟩ := by
  refine ⟨by decide, by decide, by decide⟩

/-- Claim C5 as amended: for every `Group` state whose active counter is
nonnegative (and, in this sequential model, whose pending half is zero or
whose block channel is absent, since a nonzero pending half belongs to
concurrently parked reservers the notify-free loop would wait on) and every
n > 0, `FreeN(n)` raises a fault carrying the exact tag
"sema.Group: negative group counter" exactly when the committed 32-bit
decrement leaves the stored active counter negative; in particular the
program `Reserve(); Free(); Free()` on a zero-valued `Group` faults with that
exact tag on the second `Free`, and legal programs, whose frees never exceed
the committed reserves, never fault in `FreeN`. -/
theorem c5_freeN_negative_panic :
    (∀ (g : Group) (n : Int), 0 ≤ g.ActiveCount →
      (pendingPart g.counter = 0 ∨ g.blockChan = false) → 0 < n →
      ((g.FreeN n).panicMsg = some "sema.Group: negative group counter" ↔
        wrap32s (g.ActiveCount - n) < 0)) ∧
    (Group.zero.Reserve).bind (fun _ g => (g.Free).bind (fun _ g => g.Free))
      = .panics "sema.Group: negative group counter" ⟨.absent, false, 4294967295, 0⟩ := by
  refine ⟨?_, by decide⟩
  intro g n ha hp hn
  have hact : activePart (counterUpdateWord g.counter 0 (-n))
      = wrap32s (activePart g.counter + -n) := activePart_counterUpdateWord g.counter 0 (-n)
  have hsub : g.ActiveCount - n = activePart g.counter + -n := by
    unfold Group.ActiveCount
    ring
  unfold Group.ActiveCount at ha
  rw [hsub]
  unfold Group.FreeN
  rw [if_neg (show ¬ n ≤ 0 by omega)]
  by_cases hblk : g.blockChan = true ∧ pendingPart (counterUpdateWord g.counter 0 (-n)) ≠ 0
  · rw [if_pos hblk]
    have hp0 : pendingPart g.counter = 0 := by
      rcases hp with h | h
      · exact h
      · rw [h] at hblk
        exact absurd hblk.1 (by simp)
    have hpend := pendingPart_cuw_sub g.counter n hp0 hn
    have hbor : activePart g.counter < wrap32s (activePart g.counter + -n) := by
      by_contra hcon
      rw [hpend, if_neg hcon] at hblk
      exact hblk.2 rfl
    have hge : ¬ wrap32s (activePart g.counter + -n) < 0 := by omega
    simp [Res.panicMsg, hge]
  · rw [if_neg hblk]
    rw [hact]
    by_cases hlt : wrap32s (activePart g.counter + -n) < 0
    · rw [if_pos hlt]
      simp [Res.panicMsg, hlt]
    · rw [if_neg hlt]
      simp [Res.panicMsg, hlt]

/-- Witness for claim C5's amended theorem on a concrete group holding one
active unit and a free of weight 2: the panic with the exact tag is raised
and the 32-bit decremented value -1 is negative. -/
theorem c5_freeN_negative_panic_witness :
    (0 ≤ Group.ActiveCount ⟨.absent, false, 1, 0⟩ ∧
     (pendingPart (Group.counter ⟨.absent, false, 1, 0⟩) = 0 ∨
      Group.blockChan ⟨.absent, false, 1, 0⟩ = false) ∧ (0 : Int) < 2) ∧
    ((Group.FreeN ⟨.absent, false, 1, 0⟩ 2).panicMsg
        = some "sema.Group: negative group counter" ↔
      wrap32s (Group.ActiveCount ⟨.absent, false, 1, 0⟩ - 2) < 0) :=
  ⟨⟨by decide, Or.inl (by decide), by decide⟩,
   c5_freeN_negative_panic.1 ⟨.absent, false, 1, 0⟩ 2 (by decide)
     (Or.inl (by decide)) (by decide)⟩

end Sema

namespace Sema

/-! ### Claim C10 -/

/-- Counterexample to claim C10: on a zero `Group`, `FreeN(6442450944)` (that
is, 3 * 2^31) faults with the negative-counter tag, but the committed counter
is the 32-bit wraparound of the decrement: `ActiveCount` observed after
recovering is -2147483648, not `active_before - n = -6442450944` as the claim
states. -/
theorem c10_counterexample :
    Group.FreeN Group.zero 6442450944
      = .panics "sema.Group: negative group counter" ⟨.absent, false, 2147483648, 0⟩ ∧
    Group.ActiveCount ⟨.absent, false, 2147483648, 0⟩ = -2147483648 ∧
    Group.ActiveCount Group.zero - 6442450944 = -6442450944 := by
  refine ⟨by decide, by decide, by decide⟩

/-- Claim C10 as amended: when `FreeN(n)` faults, the decrement has already
been committed before the panic is raised: the fault carries the
negative-counter tag, the counter is not restored, and `ActiveCount` observed
after recovering from the panic returns the negative value that is the signed
32-bit wraparound of `active_before - n`, which equals `active_before - n`
itself whenever that difference does not underflow the signed 32-bit range. -/
theorem c10_freeN_commits_before_panic (g : Group) (n : Int) (s : String) (g2 : Group)
    (hn : 0 < n) (hpanic : g.FreeN n = .panics s g2) :
    s = "sema.Group: negative group counter" ∧
    g2.ActiveCount = wrap32s (g.ActiveCount - n) ∧
    g2.ActiveCount < 0 ∧
    (-2147483648 ≤ g.ActiveCount - n → g2.ActiveCount = g.ActiveCount - n) := by
  have hact : activePart (counterUpdateWord g.counter 0 (-n))
      = wrap32s (activePart g.counter + -n) := activePart_counterUpdateWord g.counter 0 (-n)
  have hsub : g.ActiveCount - n = activePart g.counter + -n := by
    unfold Group.ActiveCount
    ring
  unfold Group.FreeN at hpanic
  rw [if_neg (show ¬ n ≤ 0 by omega)] at hpanic
  by_cases hblk : g.blockChan = true ∧ pendingPart (counterUpdateWord g.counter 0 (-n)) ≠ 0
  · rw [if_pos hblk] at hpanic
    exact absurd hpanic (by simp)
  · rw [if_neg hblk] at hpanic
    by_cases hlt : activePart (counterUpdateWord g.counter 0 (-n)) < 0
    · rw [if_pos hlt] at hpanic
      injection hpanic with h1 h2
      have hg2c : g2.counter = counterUpdateWord g.counter 0 (-n) := by
        rw [← h2]
        exact (notifyWait_fields _ _ _).1
      have hA : g2.ActiveCount = wrap32s (g.ActiveCount - n) := by
        rw [hsub]
        unfold Group.ActiveCount
        rw [hg2c, hact]
      refine ⟨h1.symm, hA, ?_, ?_⟩
      · rw [hA, hsub, ← hact]
        exact hlt
      · intro hge
        rw [hsub] at hge
        rw [hA, hsub]
        have hup := activePart_lt g.counter
        simp only [wrap32s]
        omega
    · rw [if_neg hlt] at hpanic
      exact absurd hpanic (by simp)

/-- Witness for claim C10's amended theorem: a group holding one active unit,
freed with weight 2, panics; the recovered state shows `ActiveCount = -1`,
which here equals `active_before - n`. -/
theorem c10_freeN_commits_before_panic_witness :
    ((0 : Int) < 2 ∧
     Group.FreeN ⟨.absent, false, 1, 0⟩ 2
       = .panics "sema.Group: negative group counter" ⟨.absent, false, 4294967295, 0⟩) ∧
    ("sema.Group: negative group counter" = "sema.Group: negative group counter" ∧
     Group.ActiveCount ⟨.absent, false, 4294967295, 0⟩
       = wrap32s (Group.ActiveCount ⟨.absent, false, 1, 0⟩ - 2) ∧
     Group.ActiveCount ⟨.absent, false, 4294967295, 0⟩ < 0 ∧
     (-2147483648 ≤ Group.ActiveCount ⟨.absent, false, 1, 0⟩ - 2 →
       Group.ActiveCount ⟨.absent, false, 4294967295, 0⟩
         = Group.ActiveCount ⟨.absent, false, 1, 0⟩ - 2)) :=
  ⟨⟨by decide, by decide⟩,
   c10_freeN_commits_before_panic ⟨.absent, false, 1, 0⟩ 2
     "sema.Group: negative group counter" ⟨.absent, false, 4294967295, 0⟩
     (by decide) (by decide)⟩

end Sema

namespace Sema

/-! ### Claim C3 -/

/-- Counterexample to claim C3: a `Group` of size 2^31 (which `SetSize`
accepts, since it fits an unsigned 32-bit value) with `n = 2^31` satisfies the
claim's success conditions (`n <= C`, `pending == 0`, `active + n <= C`), and
`TryReserveN` indeed returns true — but the signed 32-bit active half
overflows: the carry bumps pending to 1 (so pending IS mutated) and
`ActiveCount` becomes -2147483648 instead of increasing by `n`. -/
theorem c3_counterexample :
    NewGroup 2147483648 = .ret () ⟨.absent, true, 0, 2147483648⟩ ∧
    Group.TryReserveN ⟨.absent, true, 0, 2147483648⟩ 2147483648
      = .ret true ⟨.absent, true, 6442450944, 2147483648⟩ ∧
    Group.PendingCount ⟨.absent, true, 6442450944, 2147483648⟩ = 1 ∧
    Group.ActiveCount ⟨.absent, true, 6442450944, 2147483648⟩ = -2147483648 := by
  refine ⟨by decide, by decide, by decide, by decide⟩

/-- Claim C3 as amended: for every `Group` with size `C`, `0 < C < 2^31`, in a
well-formed state (counter a valid 64-bit word, active nonnegative) and every
`n > 0`: `TryReserveN(n)` returns true, increases active by exactly `n` and
leaves pending at 0 when `n <= C`, `pending == 0` and `active + n <= C`; in
every other case (`n > C`, or `pending > 0`, or `active + n > C`) it returns
false and leaves the state untouched.  For a `Group` with size 0 it always
returns true, and it adds `n` to active and leaves pending at 0 provided the
new active total stays below 2^31 (beyond that the signed low half overflows
and the carry corrupts pending, as the counterexample shows). -/
theorem c3_tryReserveN :
    (∀ (g : Group) (n : Int),
      0 < g.size → g.size < 2147483648 → 0 ≤ g.ActiveCount → 0 < n →
      n ≤ (g.size : Int) → g.PendingCount = 0 → g.ActiveCount + n ≤ (g.size : Int) →
      g.counter < 18446744073709551616 →
      g.TryReserveN n = .ret true { g with counter := g.counter + n.toNat } ∧
      Group.ActiveCount { g with counter := g.counter + n.toNat } = g.ActiveCount + n ∧
      Group.PendingCount { g with counter := g.counter + n.toNat } = 0) ∧
    (∀ (g : Group) (n : Int), 0 < g.size → 0 < n →
      ¬ (n ≤ (g.size : Int) ∧ g.PendingCount = 0 ∧ g.ActiveCount + n ≤ (g.size : Int)) →
      g.TryReserveN n = .ret false g) ∧
    (∀ (g : Group) (n : Int), g.size = 0 → 0 < n →
      (g.TryReserveN n).retValue = some true) ∧
    (∀ (g : Group) (n : Int), g.size = 0 → 0 < n →
      g.counter < 2147483648 → (g.counter : Int) + n < 2147483648 →
      g.TryReserveN n = .ret true { g with counter := g.counter + n.toNat } ∧
      Group.ActiveCount { g with counter := g.counter + n.toNat } = g.ActiveCount + n ∧
      Group.PendingCount { g with counter := g.counter + n.toNat } = 0) := by
  refine ⟨?_, ?_, ?_, ?_⟩
  · intro g n hs hs31 ha hn hns hp0 hsum hc64
    have hp0n : pendingPart g.counter = 0 := by
      unfold Group.PendingCount at hp0
      omega
    have hc32 : g.counter < 4294967296 := by
      unfold pendingPart at hp0n
      omega
    have hc31 : g.counter < 2147483648 := by
      unfold Group.ActiveCount activePart wrap32s at ha
      omega
    have hactive : g.ActiveCount = (g.counter : Int) := by
      unfold Group.ActiveCount
      exact activePart_small g.counter hc31
    rw [hactive] at ha hsum
    have hcuw : counterUpdateWord g.counter 0 n = g.counter + n.toNat :=
      counterUpdateWord_small_add g.counter n hc31 hn (by omega)
    refine ⟨?_, ?_, ?_⟩
    · unfold Group.TryReserveN
      rw [if_neg (show ¬ n ≤ 0 by omega), if_neg (show ¬ g.size = 0 by omega),
        if_neg (show ¬ (g.size : Int) < n by omega)]
      unfold Group.tryReserve
      rw [if_pos (show pendingPart g.counter = 0 ∧ activePart g.counter + n ≤ (g.size : Int)
        from ⟨hp0n, by rw [activePart_small g.counter hc31]; omega⟩)]
      rw [hcuw]
    · unfold Group.ActiveCount
      rw [show (({ g with counter := g.counter + n.toNat } : Group)).counter
          = g.counter + n.toNat from rfl]
      rw [activePart_small _ (by omega), activePart_small _ hc31]
      omega
    · unfold Group.PendingCount
      rw [show (({ g with counter := g.counter + n.toNat } : Group)).counter
          = g.counter + n.toNat from rfl]
      rw [pendingPart_small _ (by omega)]
      rfl
  · intro g n hs hn hnot
    unfold Group.TryReserveN
    rw [if_neg (show ¬ n ≤ 0 by omega), if_neg (show ¬ g.size = 0 by omega)]
    by_cases hgt : (g.size : Int) < n
    · rw [if_pos hgt]
    · rw [if_neg hgt]
      unfold Group.tryReserve
      have hcond : ¬ (pendingPart g.counter = 0 ∧ activePart g.counter + n ≤ (g.size : Int)) := by
        intro hcon
        apply hnot
        refine ⟨by omega, ?_, ?_⟩
        · unfold Group.PendingCount
          rw [hcon.1]
          rfl
        · unfold Group.ActiveCount
          exact hcon.2
      rw [if_neg hcond, if_neg (show ¬ (true = false) by simp)]
  · intro g n h0 hn
    unfold Group.TryReserveN
    rw [if_neg (show ¬ n ≤ 0 by omega), if_pos h0]
    rfl
  · intro g n h0 hn hc31 hsum
    have hcuw := counterUpdateWord_small_add g.counter n hc31 hn hsum
    refine ⟨?_, ?_, ?_⟩
    · unfold Group.TryReserveN
      rw [if_neg (show ¬ n ≤ 0 by omega), if_pos h0, hcuw]
    · unfold Group.ActiveCount
      rw [show (({ g with counter := g.counter + n.toNat } : Group)).counter
          = g.counter + n.toNat from rfl]
      rw [activePart_small _ (by omega), activePart_small _ hc31]
      omega
    · unfold Group.PendingCount
      rw [show (({ g with counter := g.counter + n.toNat } : Group)).counter
          = g.counter + n.toNat from rfl]
      rw [pendingPart_small _ (by omega)]
      rfl

/-- Witness for claim C3's amended theorem, instantiating all four parts: a
size-5 group with one active unit takes a try of 2 (active 1 to 3, pending
stays 0) and rejects a try of 7 untouched; a size-0 group always accepts, and
a size-0 group with 4 active takes a try of 3 to 7 active with pending 0. -/
theorem c3_tryReserveN_witness :
    ((0 : Int) < 2 ∧ Group.PendingCount ⟨.absent, true, 1, 5⟩ = 0 ∧
     (Group.TryReserveN ⟨.absent, true, 1, 5⟩ 2 = .ret true ⟨.absent, true, 3, 5⟩ ∧
      Group.ActiveCount ⟨.absent, true, 3, 5⟩ = Group.ActiveCount ⟨.absent, true, 1, 5⟩ + 2 ∧
      Group.PendingCount ⟨.absent, true, 3, 5⟩ = 0)) ∧
    (Group.TryReserveN ⟨.absent, true, 1, 5⟩ 7 = .ret false ⟨.absent, true, 1, 5⟩) ∧
    ((Group.TryReserveN Group.zero 9).retValue = some true) ∧
    (Group.TryReserveN ⟨.sentinel, false, 4, 0⟩ 3 = .ret true ⟨.sentinel, false, 7, 0⟩ ∧
     Group.ActiveCount ⟨.sentinel, false, 7, 0⟩ = Group.ActiveCount ⟨.sentinel, false, 4, 0⟩ + 3 ∧
     Group.PendingCount ⟨.sentinel, false, 7, 0⟩ = 0) :=
  ⟨⟨by decide, by decide,
    c3_tryReserveN.1 ⟨.absent, true, 1, 5⟩ 2 (by decide) (by decide) (by decide)
      (by decide) (by decide) (by decide) (by decide) (by decide)⟩,
   c3_tryReserveN.2.1 ⟨.absent, true, 1, 5⟩ 7 (by decide) (by decide) (by decide),
   c3_tryReserveN.2.2.1 Group.zero 9 rfl (by decide),
   c3_tryReserveN.2.2.2 ⟨.sentinel, false, 4, 0⟩ 3 rfl (by decide) (by decide) (by decide)⟩

end Sema

namespace Sema

/-! ### Claim C6 -/

/-- A legal operation on a never-configured group returns successfully,
preserves the invariant, and moves the counter by its net weight. -/
theorem zstep_ok (g : Group) (op : ZOp) (hI : ZInv g) (hok : zok g op = true) :
    ∃ g1, zstep g op = some g1 ∧ ZInv g1 ∧ (g1.counter : Int) = (g.counter : Int) + zdelta op := by
  obtain ⟨hsz, hbc, hc31⟩ := hI
  have hact : g.ActiveCount = (g.counter : Int) := by
    unfold Group.ActiveCount
    exact activePart_small g.counter hc31
  cases op with
  | reserve c n =>
    simp only [zok, Bool.and_eq_true, decide_eq_true_eq, Bool.not_eq_true'] at hok
    obtain ⟨⟨hn, hcr⟩, hsum⟩ := hok
    rw [hact] at hsum
    have hres : g.ReserveN c n = .ret true { g with counter := g.counter + n.toNat } := by
      unfold Group.ReserveN
      rw [if_neg (show ¬ n ≤ 0 by omega),
        if_neg (show ¬ c.readyNow = true by rw [hcr]; simp),
        if_pos hsz, counterUpdateWord_small_add g.counter n hc31 hn hsum]
    refine ⟨{ g with counter := g.counter + n.toNat }, ?_,
      ⟨hsz, hbc, by show g.counter + n.toNat < 2147483648; omega⟩, ?_⟩
    · show retTrueState (g.ReserveN c n) = some { g with counter := g.counter + n.toNat }
      rw [hres]
      rfl
    · show ((g.counter + n.toNat : Nat) : Int) = (g.counter : Int) + n
      omega
  | tryReserve n =>
    simp only [zok, Bool.and_eq_true, decide_eq_true_eq] at hok
    obtain ⟨hn, hsum⟩ := hok
    rw [hact] at hsum
    have hres : g.TryReserveN n = .ret true { g with counter := g.counter + n.toNat } := by
      unfold Group.TryReserveN
      rw [if_neg (show ¬ n ≤ 0 by omega), if_pos hsz,
        counterUpdateWord_small_add g.counter n hc31 hn hsum]
    refine ⟨{ g with counter := g.counter + n.toNat }, ?_,
      ⟨hsz, hbc, by show g.counter + n.toNat < 2147483648; omega⟩, ?_⟩
    · show retTrueState (g.TryReserveN n) = some { g with counter := g.counter + n.toNat }
      rw [hres]
      rfl
    · show ((g.counter + n.toNat : Nat) : Int) = (g.counter : Int) + n
      omega
  | free n =>
    simp only [zok, Bool.and_eq_true, decide_eq_true_eq] at hok
    obtain ⟨hn, hle⟩ := hok
    rw [hact] at hle
    have hcuw := counterUpdateWord_small_sub g.counter n hc31 hn hle
    have hfree : g.FreeN n = .ret ()
        (Group.notifyWait { g with counter := g.counter - n.toNat }
          (if g.blockChan then pendingPart (g.counter - n.toNat) else 0)
          (activePart (g.counter - n.toNat))) := by
      unfold Group.FreeN
      rw [if_neg (show ¬ n ≤ 0 by omega), hcuw,
        if_neg (show ¬ (g.blockChan = true ∧ pendingPart (g.counter - n.toNat) ≠ 0) from
          fun hcon => by rw [hbc] at hcon; exact absurd hcon.1 (by simp)),
        if_neg (show ¬ activePart (g.counter - n.toNat) < 0 from by
          rw [activePart_small _ (by omega)]; omega)]
    refine ⟨Group.notifyWait { g with counter := g.counter - n.toNat }
      (if g.blockChan then pendingPart (g.counter - n.toNat) else 0)
      (activePart (g.counter - n.toNat)), ?_, ?_, ?_⟩
    · show retAnyState (g.FreeN n) = some (Group.notifyWait
        { g with counter := g.counter - n.toNat }
        (if g.blockChan then pendingPart (g.counter - n.toNat) else 0)
        (activePart (g.counter - n.toNat)))
      rw [hfree]
      rfl
    · obtain ⟨hc', hs', hb'⟩ := notifyWait_fields { g with counter := g.counter - n.toNat }
        (if g.blockChan then pendingPart (g.counter - n.toNat) else 0)
        (activePart (g.counter - n.toNat))
      refine ⟨by rw [hs']; exact hsz, by rw [hb']; exact hbc, ?_⟩
      rw [hc']
      show g.counter - n.toNat < 2147483648
      omega
    · rw [(notifyWait_fields _ _ _).1]
      show ((g.counter - n.toNat : Nat) : Int) = (g.counter : Int) + -n
      omega
  | wait =>
    simp only [zok, decide_eq_true_eq] at hok
    rw [hact] at hok
    have hc0 : g.counter = 0 := by omega
    have hiw : g.initWaitChan = (.closed, g) := by
      unfold Group.initWaitChan
      have h1 : pendingPart g.counter ≤ 0 := by
        unfold pendingPart
        omega
      have h2 : activePart g.counter ≤ 0 := by
        unfold activePart wrap32s
        omega
      rw [if_pos ⟨h1, h2⟩]
    have hwait : g.Wait = .ret () g := by
      unfold Group.Wait
      rw [hiw]
      rfl
    refine ⟨g, ?_, ⟨hsz, hbc, hc31⟩, ?_⟩
    · show retAnyState g.Wait = some g
      rw [hwait]
      rfl
    · show (g.counter : Int) = (g.counter : Int) + 0
      omega

/-- A legal program on a never-configured group runs to completion, preserves
the invariant, and moves the counter by its net weight. -/
theorem zrun_ok (l : List ZOp) : ∀ (g : Group), ZInv g → zlegal g l = true →
    ∃ g1, zrun g l = some g1 ∧ ZInv g1 ∧ (g1.counter : Int) = (g.counter : Int) + znet l := by
  induction l with
  | nil =>
    intro g hI _
    refine ⟨g, rfl, hI, ?_⟩
    show (g.counter : Int) = (g.counter : Int) + znet []
    unfold znet
    omega
  | cons op l ih =>
    intro g hI hleg
    unfold zlegal at hleg
    rw [Bool.and_eq_true] at hleg
    obtain ⟨hok, hrest⟩ := hleg
    obtain ⟨g1, hstep, hI1, hcnt⟩ := zstep_ok g op hI hok
    rw [hstep] at hrest
    obtain ⟨g2, hrun, hI2, hcnt2⟩ := ih g1 hI1 hrest
    refine ⟨g2, ?_, hI2, ?_⟩
    · unfold zrun
      rw [hstep]
      exact hrun
    · rw [hcnt2, hcnt]
      show (g.counter : Int) + zdelta op + znet l = (g.counter : Int) + (zdelta op + znet l)
      omega

/-- Counterexample to claim C6: on a zero-capacity `Group`, `ReserveN` with a
never-ready done channel and weight `n = 2^31` succeeds — but the signed
32-bit active half overflows and the carry leaves `PendingCount` at 1, not 0
as the claim states. -/
theorem c6_counterexample :
    Group.ReserveN Group.zero .never 2147483648 = .ret true ⟨.absent, false, 6442450944, 0⟩ ∧
    Group.PendingCount ⟨.absent, false, 6442450944, 0⟩ = 1 := by
  refine ⟨by decide, by decide⟩

/-- Claim C6 as amended: for every sequence of operations on a `Group` that
starts from the zero value and is never configured, in which every `Reserve`,
`ReserveN` and `TryReserveN` has weight `n > 0` and a not-yet-signalled (or
absent) done channel and keeps the running active total below 2^31, every free
weight stays within the active count, and waits happen on the empty group:
the whole program completes, every reserve succeeds immediately with `true`
(`zrun` keeps a run only when each operation returns, and rejects a reserve
returning `false`), the final active count is the net reserved weight, and
`pending == 0` holds at the end (hence, applying this to every prefix, after
every operation).  Without the 2^31 bound the carry into the pending half can
make pending nonzero, as the counterexample shows. -/
theorem c6_zero_size_pending (l : List ZOp) (hleg : zlegal Group.zero l = true) :
    ∃ g1, zrun Group.zero l = some g1 ∧
      g1.PendingCount = 0 ∧ g1.size = 0 ∧ g1.ActiveCount = znet l ∧ 0 ≤ znet l := by
  obtain ⟨g1, hrun, hI, hcnt⟩ := zrun_ok l Group.zero ⟨rfl, rfl, by decide⟩ hleg
  obtain ⟨hIs, hIb, hIc⟩ := hI
  rw [show (Group.zero.counter : Int) = 0 from rfl] at hcnt
  refine ⟨g1, hrun, ?_, hIs, ?_, by omega⟩
  · unfold Group.PendingCount
    rw [pendingPart_small _ (by omega)]
    rfl
  · unfold Group.ActiveCount
    rw [activePart_small _ hIc]
    omega

/-- Witness for claim C6 on the concrete legal program
reserve(never, 2); tryReserve(1); free(3); wait. -/
theorem c6_zero_size_pending_witness :
    zlegal Group.zero [ZOp.reserve .never 2, ZOp.tryReserve 1, ZOp.free 3, ZOp.wait] = true ∧
    (∃ g1, zrun Group.zero [ZOp.reserve .never 2, ZOp.tryReserve 1, ZOp.free 3, ZOp.wait]
        = some g1 ∧
      g1.PendingCount = 0 ∧ g1.size = 0 ∧
      g1.ActiveCount = znet [ZOp.reserve .never 2, ZOp.tryReserve 1, ZOp.free 3, ZOp.wait] ∧
      0 ≤ znet [ZOp.reserve .never 2, ZOp.tryReserve 1, ZOp.free 3, ZOp.wait]) :=
  ⟨by decide,
   c6_zero_size_pending [ZOp.reserve .never 2, ZOp.tryReserve 1, ZOp.free 3, ZOp.wait]
     (by decide)⟩

end Sema
